import Mathlib

/-!
Verification of the bit-reservoir controller in `src/src/lib/reservoir.c`
(functions `ResvFrameBegin`, `ResvMaxBits`, `ResvAdjust`, `ResvFrameEnd`).

Machine integers of the C source are modelled as `Int`; the C operators
`/` and `%` on `int` truncate toward zero, so they are rendered as
`Int.tdiv` and `Int.tmod`.  The left shifts `<<3` and `<<1` are rendered
as multiplication by 8 and 2.  The test `mean_bits & 1` (bit 0 of a
two's-complement int) is rendered as `mean_bits % 2 = 1` (`Int.emod`),
which agrees with it on every integer.
-/

namespace Shine

/-- The fields of `L3_side_info_t` that `reservoir.c` reads or writes:
`main_data_begin`, `resvDrain`, and the four `gr[gr].ch[ch].tt.part2_3_length`
cells (granule 0/1 × channel 0/1), named `p00 p01 p10 p11`. -/
structure L3SideInfo where
  p00 : Int
  p01 : Int
  p10 : Int
  p11 : Int
  main_data_begin : Int
  resvDrain : Int
deriving DecidableEq

/-- Read `gr[g].ch[c].tt.part2_3_length`.  Indices other than the four
real cells never occur for the channel counts (1 or 2) the encoder uses. -/
def part23 (s : L3SideInfo) (g c : Nat) : Int :=
  match g, c with
  | 0, 0 => s.p00
  | 0, 1 => s.p01
  | 1, 0 => s.p10
  | 1, 1 => s.p11
  | _, _ => s.p11

/-- Write `gr[g].ch[c].tt.part2_3_length`. -/
def setPart23 (s : L3SideInfo) (g c : Nat) (v : Int) : L3SideInfo :=
  match g, c with
  | 0, 0 => { s with p00 := v }
  | 0, 1 => { s with p01 := v }
  | 1, 0 => { s with p10 := v }
  | 1, 1 => { s with p11 := v }
  | _, _ => { s with p11 := v }

/-- The fields of `shine_global_config` that `reservoir.c` touches:
`ResvSize` (reservoir occupancy in bits), `ResvMax` (reservoir capacity),
`mean_bits`, `wave.channels`, and the side-info record. -/
structure ShineConfig where
  ResvSize : Int
  ResvMax : Int
  mean_bits : Int
  channels : Int
  side_info : L3SideInfo
deriving DecidableEq

/-- `ResvFrameBegin` (reservoir.c lines 19–49).  `expectedResvSize` and
`fullFrameBits` are computed by the C code but never used; they are kept
here as dead bindings to mirror the source. -/
def ResvFrameBegin (frameLength : Int) (config : ShineConfig) : ShineConfig :=
  let resvLimit : Int := 4088
  let _expectedResvSize := config.side_info.main_data_begin * 8
  let _fullFrameBits := config.mean_bits * 2
  let resvMax : Int := if frameLength > 7680 then 0 else 7680 - frameLength
  let resvMax : Int := if resvMax > resvLimit then resvLimit else resvMax
  { config with ResvMax := resvMax }

/-- `ResvMaxBits` (reservoir.c lines 58–90).  The parameter `more_bits`
stands for the integer the C code computes as `*pe * 3.1 - mean_bits`
(a `double` expression truncated toward zero on assignment to `int`);
every theorem below quantifies over all of its possible values, so no
floating-point semantics is needed. -/
def ResvMaxBits (more_bits : Int) (config : ShineConfig) : Int :=
  let mean_bits := Int.tdiv config.mean_bits config.channels
  let max_bits := mean_bits
  let max_bits := if max_bits > 4095 then 4095 else max_bits
  if config.ResvMax = 0 then max_bits
  else
    let add_bits : Int :=
      if more_bits > 100 then
        let frac := Int.tdiv (config.ResvSize * 6) 10
        if frac < more_bits then frac else more_bits
      else 0
    let over_bits := config.ResvSize - Int.tdiv (config.ResvMax * 8) 10 - add_bits
    let add_bits := if over_bits > 0 then add_bits + over_bits else add_bits
    let max_bits := max_bits + add_bits
    if max_bits > 4095 then 4095 else max_bits

/-- `ResvAdjust` (reservoir.c lines 98–101): the argument is the
granule's `gi->part2_3_length`. -/
def ResvAdjust (part2_3_length : Int) (config : ShineConfig) : ShineConfig :=
  { config with
    ResvSize :=
      config.ResvSize + (Int.tdiv config.mean_bits config.channels - part2_3_length) }

/-- `ResvSize` after the parity correction of reservoir.c lines 123–124. -/
def resvSizeAfterParity (config : ShineConfig) : Int :=
  if config.channels = 2 ∧ config.mean_bits % 2 = 1 then config.ResvSize + 1
  else config.ResvSize

/-- The `over_bits` overflow removed from `ResvSize` at reservoir.c
lines 126–130. -/
def overflowOf (config : ShineConfig) : Int :=
  let over_bits := resvSizeAfterParity config - config.ResvMax
  if over_bits < 0 then 0 else over_bits

/-- `ResvSize` after the overflow has been removed (reservoir.c line 130). -/
def sizeAfterOverflow (config : ShineConfig) : Int :=
  resvSizeAfterParity config - overflowOf config

/-- The byte-alignment remainder `ResvSize % 8` removed from `ResvSize`
at reservoir.c lines 134–138 (C `%`, truncating toward zero). -/
def remainderOf (config : ShineConfig) : Int :=
  Int.tmod (sizeAfterOverflow config) 8

/-- The `stuffingBits` value of reservoir.c lines 131–137
(`ancillary_pad` is the constant 0). -/
def stuffingOf (config : ShineConfig) : Int :=
  overflowOf config + remainderOf config

/-- The final `ResvSize` written back by `ResvFrameEnd`. -/
def sizeFinal (config : ShineConfig) : Int :=
  sizeAfterOverflow config - remainderOf config

/-- The cell order of the plan-B loops (reservoir.c lines 154–155):
granule 0 then granule 1, and within a granule channel 0 up to
`wave.channels - 1`. -/
def cellOrder (channels : Int) : List (Nat × Nat) :=
  (List.range 2).flatMap (fun g => (List.range channels.toNat).map (fun c => (g, c)))

/-- One iteration of the plan-B inner loop body (reservoir.c lines 156–165):
skip if the pool is exhausted (the C `break` re-fires at every later cell,
so it is equivalent to this per-cell guard), else absorb
`min(4095 - part2_3_length, pool)`. -/
def stuffOne (st : L3SideInfo × Int) (cell : Nat × Nat) : L3SideInfo × Int :=
  let s := st.1
  let pool := st.2
  if pool = 0 then st
  else
    let extraBits := 4095 - part23 s cell.1 cell.2
    let bitsThisGr := if extraBits < pool then extraBits else pool
    (setPart23 s cell.1 cell.2 (part23 s cell.1 cell.2 + bitsThisGr), pool - bitsThisGr)

/-- The whole plan-B double loop: fold the body over the cell order.
Returns the updated side info and the leftover pool. -/
def planB (channels : Int) (s : L3SideInfo) (pool : Int) : L3SideInfo × Int :=
  (cellOrder channels).foldl stuffOne (s, pool)

/-- The write `l3_side->resvDrain = stuffingBits` (reservoir.c line 171). -/
def setDrain (s : L3SideInfo) (v : Int) : L3SideInfo :=
  { s with resvDrain := v }

/-- `ResvFrameEnd` (reservoir.c lines 112–174). -/
def ResvFrameEnd (config : ShineConfig) : ShineConfig :=
  { config with
    ResvSize := sizeFinal config
    side_info :=
      if stuffingOf config ≠ 0 then
        if part23 config.side_info 0 0 + stuffingOf config < 4095 then
          setPart23 config.side_info 0 0
            (part23 config.side_info 0 0 + stuffingOf config)
        else
          setDrain (planB config.channels config.side_info (stuffingOf config)).1
            (planB config.channels config.side_info (stuffingOf config)).2
      else config.side_info }

/-- Modelled from the spec (§4.4 step 6, claim C1's wording): visit the
cells in the given order; for each cell `room = 4095 - bitsUsed`, absorb
`min room pool`, subtract it from the pool, and stop once the pool
reaches zero. -/
def distributeSpec : List (Nat × Nat) → L3SideInfo → Int → L3SideInfo × Int
  | [], s, pool => (s, pool)
  | cell :: rest, s, pool =>
    if pool = 0 then (s, pool)
    else
      let room := 4095 - part23 s cell.1 cell.2
      let absorb := min room pool
      distributeSpec rest (setPart23 s cell.1 cell.2 (part23 s cell.1 cell.2 + absorb))
        (pool - absorb)

/-- Sum of the four granule/channel `part2_3_length` fields. -/
def grTotal (s : L3SideInfo) : Int :=
  s.p00 + s.p01 + s.p10 + s.p11

/-- Valid call sequences.  The Boolean records whether at least one
`ResvFrameBegin` has happened (a valid per-frame sequence always begins
with it).  This relation is deliberately more permissive than the exact
frame discipline (FrameBegin, then per granule MaxBits/Adjust, then
FrameEnd): every valid in-order sequence is a trace of it, so an invariant
proved for all `Reachable` states holds in particular for all valid ones.
`ResvMaxBits` itself mutates nothing, so it needs no step; its result
enters through the bound on `adjust`.  The `init` side conditions record
the session invariants: zeroed occupancy, a nonnegative nominal bit
budget, and at least one channel. -/
inductive Reachable : Bool → ShineConfig → Prop where
  | init (c : ShineConfig) (h0 : c.ResvSize = 0) (hm : 0 ≤ c.mean_bits)
      (hc : 1 ≤ c.channels) : Reachable false c
  | frameBegin {b : Bool} {c : ShineConfig} (fl : Int) (h : Reachable b c) :
      Reachable true (ResvFrameBegin fl c)
  | adjust {c : ShineConfig} (mb used : Int) (h : Reachable true c) (hu0 : 0 ≤ used)
      (hu1 : used ≤ ResvMaxBits mb c) : Reachable true (ResvAdjust used c)
  | frameEnd {c : ShineConfig} (h : Reachable true c) : Reachable true (ResvFrameEnd c)

/-- All-zero side info, for concrete instances. -/
def si0 : L3SideInfo := ⟨0, 0, 0, 0, 0, 0⟩

def c1w : ShineConfig := ⟨20, 0, 0, 2, si0⟩

def c2x : ShineConfig := ⟨5, -3, 0, 1, si0⟩

def c2w : ShineConfig := ⟨12, 4088, 0, 1, si0⟩

def c3x : ShineConfig := ⟨0, 8, 0, 1, ⟨0, 0, 0, 0, 0, 7⟩⟩

def c3w : ShineConfig := ⟨24, 0, 0, 2, si0⟩

def c4x : ShineConfig := ⟨0, 8, 0, 1, ⟨0, 0, 0, 0, 0, 5⟩⟩

def c5x : ShineConfig := ⟨-100000, 4088, 0, 1, si0⟩

def c5w : ShineConfig := ⟨0, 4088, 1000, 2, si0⟩

def c6x : ShineConfig := ⟨0, 0, 10000, 1, si0⟩

def c6w : ShineConfig := ⟨0, 0, 128, 2, si0⟩

def c7x : ShineConfig := ⟨0, 0, 0, 2, si0⟩

def c8x : ShineConfig := ⟨0, 0, 10000, 1, si0⟩

def c9w : ShineConfig := ⟨0, 0, 1000, 2, si0⟩

/-! ## Helper lemmas -/

theorem foldl_stuffOne_zero (cells : List (Nat × Nat)) (s : L3SideInfo) :
    List.foldl stuffOne (s, 0) cells = (s, 0) := by
  induction cells with
  | nil => rfl
  | cons cell rest ih => simpa [stuffOne] using ih

theorem foldl_stuffOne_eq (cells : List (Nat × Nat)) :
    ∀ (s : L3SideInfo) (pool : Int),
      List.foldl stuffOne (s, pool) cells = distributeSpec cells s pool := by
  induction cells with
  | nil => intro s pool; rfl
  | cons cell rest ih =>
    intro s pool
    by_cases hp : pool = 0
    · subst hp
      rw [distributeSpec]
      simp [stuffOne, foldl_stuffOne_zero]
    · rw [List.foldl_cons, distributeSpec, if_neg hp]
      have hmin :
          (if 4095 - part23 s cell.1 cell.2 < pool then 4095 - part23 s cell.1 cell.2
            else pool) = min (4095 - part23 s cell.1 cell.2) pool := by
        rw [Int.min_def]; split_ifs <;> omega
      simp only [stuffOne, if_neg hp]
      rw [hmin, ih]

theorem grTotal_setPart23 (s : L3SideInfo) (g c : Nat) (v : Int) :
    grTotal (setPart23 s g c (part23 s g c + v)) = grTotal s + v := by
  rcases g with _ | _ | g <;> rcases c with _ | _ | c <;>
    simp [setPart23, part23, grTotal] <;> omega

theorem stuffOne_conserves (st : L3SideInfo × Int) (cell : Nat × Nat) :
    grTotal (stuffOne st cell).1 + (stuffOne st cell).2 = grTotal st.1 + st.2 := by
  obtain ⟨s, pool⟩ := st
  by_cases hp : pool = 0
  · simp [stuffOne, hp]
  · simp only [stuffOne, if_neg hp]
    rw [grTotal_setPart23]
    omega

theorem foldl_stuffOne_conserves (cells : List (Nat × Nat)) :
    ∀ st : L3SideInfo × Int,
      grTotal (List.foldl stuffOne st cells).1 + (List.foldl stuffOne st cells).2 =
        grTotal st.1 + st.2 := by
  induction cells with
  | nil => intro st; rfl
  | cons cell rest ih =>
    intro st
    rw [List.foldl_cons, ih, stuffOne_conserves]

theorem grTotal_setDrain (s : L3SideInfo) (v : Int) :
    grTotal (setDrain s v) = grTotal s := rfl

theorem setDrain_resvDrain (s : L3SideInfo) (v : Int) :
    (setDrain s v).resvDrain = v := rfl

theorem tdiv_nonpos_of_nonpos (a b : Int) (h1 : a ≤ 0) (h2 : 0 ≤ b) :
    Int.tdiv a b ≤ 0 := by
  have h3 : 0 ≤ Int.tdiv (-a) b := Int.tdiv_nonneg (by omega) h2
  have h4 : Int.tdiv (-a) b = -Int.tdiv a b := Int.neg_tdiv a b
  omega

theorem tdiv_six_le (x : Int) (h : 0 ≤ x) : Int.tdiv (x * 6) 10 ≤ x := by
  have h6 : (0 : Int) ≤ x * 6 := by omega
  rw [Int.tdiv_eq_ediv h6 (by norm_num)]
  have h1 : x * 6 / 10 ≤ x * 10 / 10 := Int.ediv_le_ediv (by norm_num) (by omega)
  have h2 : x * 10 / 10 = x := Int.mul_ediv_cancel x (by norm_num)
  omega

theorem resvSizeAfterParity_ge (c : ShineConfig) :
    c.ResvSize ≤ resvSizeAfterParity c ∧ resvSizeAfterParity c ≤ c.ResvSize + 1 := by
  unfold resvSizeAfterParity; split_ifs <;> omega

theorem sizeAfterOverflow_le (c : ShineConfig) : sizeAfterOverflow c ≤ c.ResvMax := by
  simp only [sizeAfterOverflow, overflowOf]
  split_ifs <;> omega

theorem sizeAfterOverflow_nonneg (c : ShineConfig) (h1 : 0 ≤ c.ResvSize)
    (h2 : 0 ≤ c.ResvMax) : 0 ≤ sizeAfterOverflow c := by
  have hp := resvSizeAfterParity_ge c
  simp only [sizeAfterOverflow, overflowOf]
  split_ifs <;> omega

theorem sizeFinal_eq (c : ShineConfig) :
    sizeFinal c = 8 * Int.tdiv (sizeAfterOverflow c) 8 := by
  have h := Int.tdiv_add_tmod (sizeAfterOverflow c) 8
  unfold sizeFinal remainderOf
  omega

theorem sizeFinal_emod (c : ShineConfig) : sizeFinal c % 8 = 0 := by
  rw [sizeFinal_eq]
  exact Int.mul_emod_right 8 _

theorem sizeFinal_le (c : ShineConfig) (h2 : 0 ≤ c.ResvMax) :
    sizeFinal c ≤ c.ResvMax := by
  rcases le_or_lt 0 (sizeAfterOverflow c) with h | h
  · have hm : 0 ≤ Int.tmod (sizeAfterOverflow c) 8 := Int.tmod_nonneg 8 h
    have hle := sizeAfterOverflow_le c
    unfold sizeFinal remainderOf
    omega
  · rw [sizeFinal_eq]
    have := tdiv_nonpos_of_nonpos (sizeAfterOverflow c) 8 (by omega) (by norm_num)
    omega

theorem sizeFinal_nonneg (c : ShineConfig) (h1 : 0 ≤ c.ResvSize)
    (h2 : 0 ≤ c.ResvMax) : 0 ≤ sizeFinal c := by
  rw [sizeFinal_eq]
  have := Int.tdiv_nonneg (sizeAfterOverflow_nonneg c h1 h2) (by norm_num : (0 : Int) ≤ 8)
  omega

theorem ResvFrameEnd_ResvSize (c : ShineConfig) :
    (ResvFrameEnd c).ResvSize = sizeFinal c := rfl

theorem ResvFrameEnd_ResvMax (c : ShineConfig) :
    (ResvFrameEnd c).ResvMax = c.ResvMax := rfl

theorem ResvFrameBegin_ResvMax (fl : Int) (c : ShineConfig) :
    (ResvFrameBegin fl c).ResvMax =
      (if (if fl > 7680 then (0 : Int) else 7680 - fl) > 4088 then 4088
        else (if fl > 7680 then (0 : Int) else 7680 - fl)) := rfl

theorem ResvFrameBegin_ResvMax_nonneg (fl : Int) (c : ShineConfig) :
    0 ≤ (ResvFrameBegin fl c).ResvMax := by
  rw [ResvFrameBegin_ResvMax]
  split_ifs <;> omega

theorem ResvMaxBits_le (mb : Int) (c : ShineConfig) (h1 : 0 ≤ c.ResvSize)
    (h2 : 0 ≤ c.ResvMax) (h3 : 0 ≤ c.mean_bits) (h4 : 1 ≤ c.channels) :
    ResvMaxBits mb c ≤ Int.tdiv c.mean_bits c.channels + c.ResvSize := by
  have hb : 0 ≤ Int.tdiv c.mean_bits c.channels := Int.tdiv_nonneg h3 (by omega)
  have hf0 : 0 ≤ Int.tdiv (c.ResvSize * 6) 10 := Int.tdiv_nonneg (by omega) (by norm_num)
  have hf1 : Int.tdiv (c.ResvSize * 6) 10 ≤ c.ResvSize := tdiv_six_le c.ResvSize h1
  have ht : 0 ≤ Int.tdiv (c.ResvMax * 8) 10 := Int.tdiv_nonneg (by omega) (by norm_num)
  simp only [ResvMaxBits]
  split_ifs <;> omega

theorem reachable_inv {b : Bool} {c : ShineConfig} (h : Reachable b c) :
    0 ≤ c.ResvSize ∧ 0 ≤ c.mean_bits ∧ 1 ≤ c.channels ∧
      (b = true → 0 ≤ c.ResvMax) := by
  induction h with
  | init c h0 hm hc => exact ⟨by omega, hm, hc, by simp⟩
  | frameBegin fl h ih =>
    obtain ⟨i1, i2, i3, _⟩ := ih
    exact ⟨i1, i2, i3, fun _ => ResvFrameBegin_ResvMax_nonneg _ _⟩
  | adjust mb used h hu0 hu1 ih =>
    obtain ⟨i1, i2, i3, i4⟩ := ih
    have hmax := ResvMaxBits_le mb _ i1 (i4 rfl) i2 i3
    refine ⟨?_, i2, i3, fun _ => i4 rfl⟩
    show 0 ≤ _ + (Int.tdiv _ _ - used)
    omega
  | frameEnd h ih =>
    obtain ⟨i1, i2, i3, i4⟩ := ih
    exact ⟨by rw [ResvFrameEnd_ResvSize]; exact sizeFinal_nonneg _ i1 (i4 rfl),
      i2, i3, fun _ => by rw [ResvFrameEnd_ResvMax]; exact i4 rfl⟩

/-! ## Claim theorems -/

/-- C1: in `ResvFrameEnd`, whenever the computed stuffingBits is nonzero,
Plan A (adding all stuffing bits to granule 0 / channel 0) is taken if and
only if `bitsUsed[0][0] + stuffingBits < 4095`; otherwise Plan B visits the
cells in the fixed order g0c0, g0c1, g1c0, g1c1 (the order for the two-channel
configuration the claim enumerates), adds `min (4095 - bitsUsed) pool` to
each, subtracts it from the pool, and stops once the pool reaches zero. -/
theorem c1_planA_iff_else_planB_order (c : ShineConfig) (hch : c.channels = 2)
    (hs : stuffingOf c ≠ 0) :
    (ResvFrameEnd c).side_info =
      (if part23 c.side_info 0 0 + stuffingOf c < 4095 then
        setPart23 c.side_info 0 0 (part23 c.side_info 0 0 + stuffingOf c)
      else
        setDrain (distributeSpec [(0, 0), (0, 1), (1, 0), (1, 1)] c.side_info (stuffingOf c)).1
          (distributeSpec [(0, 0), (0, 1), (1, 0), (1, 1)] c.side_info (stuffingOf c)).2) := by
  have hcells : cellOrder c.channels = [(0, 0), (0, 1), (1, 0), (1, 1)] := by
    rw [hch]; rfl
  show (if stuffingOf c ≠ 0 then _ else _) = _
  rw [if_pos hs]
  unfold planB
  rw [hcells, foldl_stuffOne_eq]

theorem c1_witness :
    stuffingOf c1w ≠ 0 ∧
      (ResvFrameEnd c1w).side_info =
        (if part23 c1w.side_info 0 0 + stuffingOf c1w < 4095 then
          setPart23 c1w.side_info 0 0 (part23 c1w.side_info 0 0 + stuffingOf c1w)
        else
          setDrain
            (distributeSpec [(0, 0), (0, 1), (1, 0), (1, 1)] c1w.side_info (stuffingOf c1w)).1
            (distributeSpec [(0, 0), (0, 1), (1, 0), (1, 1)] c1w.side_info (stuffingOf c1w)).2) :=
  ⟨by decide, c1_planA_iff_else_planB_order c1w rfl (by decide)⟩

/-- C2 counterexample: with occupancy 5 and capacity -3 on entry (the claim
quantifies over all occupancy and capacity values), `ResvFrameEnd` leaves
occupancy 0, which is not ≤ the capacity -3. -/
theorem c2_counterexample :
    ¬ ((ResvFrameEnd c2x).ResvSize % 8 = 0 ∧
        (ResvFrameEnd c2x).ResvSize ≤ (ResvFrameEnd c2x).ResvMax) := by
  decide

/-- C2 amended: provided capacity is nonnegative on entry (as every
`ResvFrameBegin` establishes), after `ResvFrameEnd` the occupancy satisfies
`occupancy % 8 = 0` and `occupancy ≤ capacity`, for every occupancy
(above capacity, misaligned, or negative included). -/
theorem c2_frameEnd_aligned_and_within_capacity (c : ShineConfig)
    (h : 0 ≤ c.ResvMax) :
    (ResvFrameEnd c).ResvSize % 8 = 0 ∧
      (ResvFrameEnd c).ResvSize ≤ (ResvFrameEnd c).ResvMax := by
  rw [ResvFrameEnd_ResvSize, ResvFrameEnd_ResvMax]
  exact ⟨sizeFinal_emod c, sizeFinal_le c h⟩

theorem c2_witness :
    0 ≤ c2w.ResvMax ∧
      ((ResvFrameEnd c2w).ResvSize % 8 = 0 ∧
        (ResvFrameEnd c2w).ResvSize ≤ (ResvFrameEnd c2w).ResvMax) :=
  ⟨by decide, c2_frameEnd_aligned_and_within_capacity c2w (by decide)⟩

/-- C3 counterexample: `ResvFrameEnd` does not write `resvDrain` when the
stuffing bits are zero, so with `resvDrain = 7` on entry the claimed balance
`overflow + remainder = bitsAdded + resvDrainAfter` reads `0 = 0 + 7`. -/
theorem c3_counterexample :
    ¬ (overflowOf c3x + remainderOf c3x =
        (grTotal (ResvFrameEnd c3x).side_info - grTotal c3x.side_info) +
          (ResvFrameEnd c3x).side_info.resvDrain) := by
  decide

/-- C3 amended: provided `resvDrain` is 0 on entry, the stuffing bits are
conserved: the overflow removed from occupancy plus the byte-alignment
remainder removed from occupancy equals the total bits added across the
granule/channel `part2_3_length` fields plus `resvDrain` after the call. -/
theorem c3_stuffing_conservation (c : ShineConfig)
    (h : c.side_info.resvDrain = 0) :
    overflowOf c + remainderOf c =
      (grTotal (ResvFrameEnd c).side_info - grTotal c.side_info) +
        (ResvFrameEnd c).side_info.resvDrain := by
  have hst : stuffingOf c = overflowOf c + remainderOf c := rfl
  show _ = (grTotal (if stuffingOf c ≠ 0 then _ else _) - _) +
    (if stuffingOf c ≠ 0 then _ else _ : L3SideInfo).resvDrain
  by_cases h1 : stuffingOf c ≠ 0
  · rw [if_pos h1]
    by_cases h2 : part23 c.side_info 0 0 + stuffingOf c < 4095
    · rw [if_pos h2]
      have hg := grTotal_setPart23 c.side_info 0 0 (stuffingOf c)
      have hd : (setPart23 c.side_info 0 0
          (part23 c.side_info 0 0 + stuffingOf c)).resvDrain = c.side_info.resvDrain := rfl
      omega
    · rw [if_neg h2]
      have hcons :
          grTotal (List.foldl stuffOne (c.side_info, stuffingOf c) (cellOrder c.channels)).1 +
              (List.foldl stuffOne (c.side_info, stuffingOf c) (cellOrder c.channels)).2 =
            grTotal c.side_info + stuffingOf c :=
        foldl_stuffOne_conserves (cellOrder c.channels) (c.side_info, stuffingOf c)
      rw [grTotal_setDrain, setDrain_resvDrain]
      have hB : planB c.channels c.side_info (stuffingOf c) =
          List.foldl stuffOne (c.side_info, stuffingOf c) (cellOrder c.channels) := rfl
      rw [hB]
      omega
  · rw [if_neg h1]
    have h0 : stuffingOf c = 0 := not_not.mp h1
    omega

theorem c3_witness :
    c3w.side_info.resvDrain = 0 ∧
      overflowOf c3w + remainderOf c3w =
        (grTotal (ResvFrameEnd c3w).side_info - grTotal c3w.side_info) +
          (ResvFrameEnd c3w).side_info.resvDrain :=
  ⟨by decide, c3_stuffing_conservation c3w (by decide)⟩

/-- C4 counterexample: a call with zero stuffing bits and `resvDrain = 5`
on entry leaves `resvDrain = 5`, so `ResvFrameEnd` does not write
`resvDrain` on every call and the result is not 0 when stuffingBits = 0. -/
theorem c4_counterexample :
    stuffingOf c4x = 0 ∧ ¬ (ResvFrameEnd c4x).side_info.resvDrain = 0 := by
  decide

/-- C4 amended: `ResvFrameEnd` writes `resvDrain` only when Plan B runs
(stuffing bits nonzero and Plan A rejected), and then it equals the
leftover pool of the distribution; in every other case `resvDrain` keeps
the value it had before the call. -/
theorem c4_resvDrain_written_only_by_planB (c : ShineConfig) :
    (ResvFrameEnd c).side_info.resvDrain =
      (if stuffingOf c ≠ 0 ∧ ¬ part23 c.side_info 0 0 + stuffingOf c < 4095 then
        (planB c.channels c.side_info (stuffingOf c)).2
      else c.side_info.resvDrain) := by
  show (if stuffingOf c ≠ 0 then _ else _ : L3SideInfo).resvDrain = _
  by_cases h1 : stuffingOf c ≠ 0
  · rw [if_pos h1]
    by_cases h2 : part23 c.side_info 0 0 + stuffingOf c < 4095
    · rw [if_pos h2, if_neg (by tauto)]
      rfl
    · rw [if_neg h2, if_pos ⟨h1, h2⟩, setDrain_resvDrain]
  · rw [if_neg h1, if_neg (by tauto)]

/-- C5 counterexample: with occupancy -100000 and capacity 4088 (the claim
quantifies over all occupancy and capacity values), `ResvMaxBits` returns
-60000 < 0.  The argument 3100 is the integer the C source computes as
`*pe * 3.1 - mean_bits` for the finite non-negative estimate pe = 1000
with `mean_bits = 0`. -/
theorem c5_counterexample :
    ResvMaxBits 3100 c5x = -60000 ∧ ResvMaxBits 3100 c5x < 0 := by
  decide

/-- C5 amended: provided occupancy is nonnegative on entry (capacity still
arbitrary), and given the session invariants `0 ≤ mean_bits` and
`1 ≤ channels`, `ResvMaxBits` returns a value in [0, 4095] for every
value of the entropy-driven demand term. -/
theorem c5_maxBits_in_range (mb : Int) (c : ShineConfig) (h1 : 0 ≤ c.ResvSize)
    (h3 : 0 ≤ c.mean_bits) (h4 : 1 ≤ c.channels) :
    0 ≤ ResvMaxBits mb c ∧ ResvMaxBits mb c ≤ 4095 := by
  have hb : 0 ≤ Int.tdiv c.mean_bits c.channels := Int.tdiv_nonneg h3 (by omega)
  have hf0 : 0 ≤ Int.tdiv (c.ResvSize * 6) 10 := Int.tdiv_nonneg (by omega) (by norm_num)
  simp only [ResvMaxBits]
  split_ifs <;> omega

theorem c5_witness :
    (0 ≤ c5w.ResvSize ∧ 0 ≤ c5w.mean_bits ∧ 1 ≤ c5w.channels) ∧
      (0 ≤ ResvMaxBits 400 c5w ∧ ResvMaxBits 400 c5w ≤ 4095) :=
  ⟨by decide, c5_maxBits_in_range 400 c5w (by decide) (by decide) (by decide)⟩

/-- C6 counterexample: with `mean_bits = 10000` and one channel,
`ResvMaxBits` under `ResvMax = 0` returns 4095, not
`mean_bits / channels = 10000`: the 4095 cap is applied before the
capacity test. -/
theorem c6_counterexample :
    c6x.ResvMax = 0 ∧ ¬ ResvMaxBits 0 c6x = Int.tdiv c6x.mean_bits c6x.channels := by
  decide

/-- C6 amended: whenever capacity is 0, `ResvMaxBits` returns exactly
`min (meanBitsPerFrame / channelCount) 4095`, for every entropy estimate
and every occupancy. -/
theorem c6_capacity_zero_returns_base (mb : Int) (c : ShineConfig)
    (h : c.ResvMax = 0) :
    ResvMaxBits mb c = min (Int.tdiv c.mean_bits c.channels) 4095 := by
  simp only [ResvMaxBits, if_pos h]
  rw [Int.min_def]
  split_ifs <;> omega

theorem c6_witness :
    c6w.ResvMax = 0 ∧
      ResvMaxBits 5 c6w = min (Int.tdiv c6w.mean_bits c6w.channels) 4095 :=
  ⟨by decide, c6_capacity_zero_returns_base 5 c6w (by decide)⟩

/-- C7 counterexample: for `frameLength = 7681`, `ResvFrameBegin` sets
capacity 0, but the claimed bound `capacity ≤ min (7680 - frameLength) 4088`
fails since that min is -1. -/
theorem c7_counterexample :
    (ResvFrameBegin 7681 c7x).ResvMax = 0 ∧
      ¬ (ResvFrameBegin 7681 c7x).ResvMax ≤ min (7680 - 7681) 4088 := by
  decide

/-- C7 amended: `ResvFrameBegin` sets capacity to 0 when
`frameLength > 7680` and otherwise to `min (7680 - frameLength) 4088`;
consequently, after every `ResvFrameBegin`,
`0 ≤ capacity ≤ min (max (7680 - frameLength) 0) 4088` (the claimed upper
bound `min (7680 - frameLength) 4088` is negative when
`frameLength > 7680`, where the capacity is 0). -/
theorem c7_frameBegin_capacity (fl : Int) (c : ShineConfig) :
    (ResvFrameBegin fl c).ResvMax =
        (if fl > 7680 then 0 else min (7680 - fl) 4088) ∧
      0 ≤ (ResvFrameBegin fl c).ResvMax ∧
      (ResvFrameBegin fl c).ResvMax ≤ min (max (7680 - fl) 0) 4088 := by
  rw [ResvFrameBegin_ResvMax]
  rw [min_def, min_def, max_def]
  refine ⟨?_, ?_, ?_⟩ <;> split_ifs <;> omega

/-- C8 counterexample: with `mean_bits = 10000` and one channel,
`ResvAdjust` adds the uncapped 10000 to occupancy, not the
4095-capped allotment of §4.2 step 1. -/
theorem c8_counterexample :
    (ResvAdjust 0 c8x).ResvSize = 10000 ∧
      ¬ (ResvAdjust 0 c8x).ResvSize =
          c8x.ResvSize + (min (Int.tdiv c8x.mean_bits c8x.channels) 4095 - 0) := by
  decide

/-- C8 amended: for every state and every bitsUsedThisGranule, `ResvAdjust`
sets occupancy to `occupancy + (meanBitsPerFrame / channelCount) - bitsUsed`
where the per-channel allotment is NOT capped at 4095, performs no clamping,
and changes no other field. -/
theorem c8_adjust_exact (used : Int) (c : ShineConfig) :
    (ResvAdjust used c).ResvSize =
        c.ResvSize + (Int.tdiv c.mean_bits c.channels - used) ∧
      (ResvAdjust used c).ResvMax = c.ResvMax ∧
      (ResvAdjust used c).mean_bits = c.mean_bits ∧
      (ResvAdjust used c).channels = c.channels ∧
      (ResvAdjust used c).side_info = c.side_info :=
  ⟨rfl, rfl, rfl, rfl, rfl⟩

/-- C9: for every state reachable from a zeroed-occupancy session start by
a valid in-order sequence of the four operations (each granule's bits used
between 0 and the `ResvMaxBits` the controller granted it), the occupancy
is nonnegative immediately after every `ResvFrameEnd`. -/
theorem c9_occupancy_nonneg_after_frameEnd (c : ShineConfig)
    (h : Reachable true c) : 0 ≤ (ResvFrameEnd c).ResvSize := by
  obtain ⟨i1, _, _, i4⟩ := reachable_inv h
  rw [ResvFrameEnd_ResvSize]
  exact sizeFinal_nonneg c i1 (i4 rfl)

theorem c9_witness : 0 ≤ (ResvFrameEnd (ResvFrameBegin 417 c9w)).ResvSize :=
  c9_occupancy_nonneg_after_frameEnd _
    (Reachable.frameBegin 417 (Reachable.init c9w rfl (by decide) (by decide)))

/-- C10: `ResvFrameBegin` mutates only the capacity: occupancy, the granule
`part2_3_length` fields, `resvDrain` (and the whole side-info record) are
unchanged, and the upstream-consistency computation from `main_data_begin`
has no effect: changing `main_data_begin` changes nothing in the result
beyond that stored field itself. -/
theorem c10_frameBegin_only_capacity (fl d : Int) (c : ShineConfig) :
    (ResvFrameBegin fl c).ResvSize = c.ResvSize ∧
      (ResvFrameBegin fl c).mean_bits = c.mean_bits ∧
      (ResvFrameBegin fl c).channels = c.channels ∧
      (ResvFrameBegin fl c).side_info = c.side_info ∧
      ResvFrameBegin fl { c with side_info := { c.side_info with main_data_begin := d } } =
        { ResvFrameBegin fl c with
          side_info := { (ResvFrameBegin fl c).side_info with main_data_begin := d } } :=
  ⟨rfl, rfl, rfl, rfl, rfl⟩

end Shine
